import Mathlib

/-!
Verification development for the ComfyUI workflow-scanner dependency extractor
(`lib/workflow-scanner.ts` together with the data shapes of `lib/types.ts`).

The extractor is a pure function from a loosely-typed workflow graph to a
dependency manifest.  We embed the JavaScript semantics shallowly:

* `JValue` models the loosely-typed JavaScript values that may appear in a
  node's `widgets_values` array (declared `any[]` in `types.ts`).  JS numbers
  are modelled as integers; every value relevant to the scanner's behaviour
  (truthiness tests and `String(...)` conversion) is covered.  A plain object
  is modelled by the opaque constructor `obj`, since the scanner only ever
  tests objects for truthiness and stringifies them.
* The typed node shape follows `types.ts` exactly: every field is optional.
* The top-level `nodes` field is loose (`NodesValue`): besides a proper array
  it may hold an arbitrary non-array JavaScript value, which is what the
  error-handling claims are about.  A JavaScript `TypeError` is modelled by
  `Except.error`.
-/

/-- A loosely-typed JavaScript value, as found in `widgets_values` (`any[]`).
`num` models JS numbers restricted to integers (no claim involves fractional
values); `obj` is an opaque plain object. -/
inductive JValue where
  | undefined
  | null
  | bool (b : Bool)
  | num (n : Int)
  | str (s : String)
  | arr (elems : List JValue)
  | obj
deriving Repr

/-- JavaScript truthiness of a value (`if (value)`). -/
def JValue.truthy : JValue → Bool
  | .undefined => false
  | .null => false
  | .bool b => b
  | .num n => n != 0
  | .str s => !s.isEmpty
  | .arr _ => true
  | .obj => true

mutual
/-- JavaScript `String(value)` conversion.  Arrays stringify by joining their
elements with commas, with `null` and `undefined` elements becoming the empty
string; a plain object stringifies to `"[object Object]"`. -/
def JValue.toJSString : JValue → String
  | .undefined => "undefined"
  | .null => "null"
  | .bool true => "true"
  | .bool false => "false"
  | .num n => toString n
  | .str s => s
  | .arr xs => String.intercalate "," (JValue.elemStrings xs)
  | .obj => "[object Object]"

/-- Element-wise stringification used by JavaScript array-to-string
conversion: `null` and `undefined` become `""`. -/
def JValue.elemStrings : List JValue → List String
  | [] => []
  | .undefined :: rest => "" :: JValue.elemStrings rest
  | .null :: rest => "" :: JValue.elemStrings rest
  | .bool b :: rest => JValue.toJSString (.bool b) :: JValue.elemStrings rest
  | .num n :: rest => JValue.toJSString (.num n) :: JValue.elemStrings rest
  | .str s :: rest => s :: JValue.elemStrings rest
  | .arr xs :: rest => JValue.toJSString (.arr xs) :: JValue.elemStrings rest
  | .obj :: rest => JValue.toJSString .obj :: JValue.elemStrings rest
end

/-- JavaScript strict equality of a value with the empty-string literal
(`value === ''`). -/
def JValue.isEmptyStrLit : JValue → Bool
  | .str s => s.isEmpty
  | _ => false

/-- One entry of a node's `properties.models` array
(`Array<{directory?: string; name?: string}>` in `types.ts`). -/
structure ModelEntry where
  directory : Option String
  name : Option String
deriving Repr, DecidableEq

/-- The `properties` object of a workflow node (`types.ts`). -/
structure NodeProperties where
  cnr_id : Option String
  ver : Option String
  models : Option (List ModelEntry)
deriving Repr

/-- A workflow node (`WorkflowNode` in `types.ts`): every field optional,
`widgets_values` loosely typed (`any[]`). -/
structure WorkflowNode where
  type : Option String
  widgets_values : Option (List JValue)
  properties : Option NodeProperties
deriving Repr

/-- A non-array JavaScript value that may sit in the top-level `nodes` field
of a malformed input. -/
inductive NonArrayValue where
  | null
  | bool (b : Bool)
  | num (n : Int)
  | str (s : String)
  | obj
deriving Repr, DecidableEq

/-- JavaScript truthiness of a non-array value. -/
def NonArrayValue.truthy : NonArrayValue → Bool
  | .null => false
  | .bool b => b
  | .num n => n != 0
  | .str s => !s.isEmpty
  | .obj => true

/-- The value held by the top-level `nodes` field: either a proper array of
nodes, or some non-array JavaScript value. -/
inductive NodesValue where
  | arr (nodes : List WorkflowNode)
  | other (v : NonArrayValue)
deriving Repr

/-- The top-level workflow JSON (`WorkflowJSON` in `types.ts`):
`nodes` optional and, at runtime, possibly not an array at all. -/
structure WorkflowJSON where
  nodes : Option NodesValue
deriving Repr

/-- A detected custom-node package (`CustomNode` in `types.ts`):
`{node, version}`. -/
structure CustomNode where
  node : String
  version : String
deriving Repr, DecidableEq

/-- The thirteen model categories of the manifest
(`WorkflowModels` in `types.ts`). -/
structure WorkflowModels where
  checkpoints : List String
  vae : List String
  loras : List String
  upscale_models : List String
  controlnet : List String
  clip : List String
  clip_vision : List String
  text_encoders : List String
  diffusion_models : List String
  embedding : List String
  style_models : List String
  hypernetworks : List String
  gligen : List String
deriving Repr, DecidableEq

/-- The scan result (`ScanResult` in `types.ts`): the models object plus the
`"custom-nodes"` list (named `customNodes` here since `-` cannot appear in a
Lean identifier). -/
structure ScanResult where
  models : WorkflowModels
  customNodes : List CustomNode
deriving Repr, DecidableEq

/-!
## String ordering

JavaScript's default `Array.prototype.sort` comparator compares the strings'
UTF-16 code unit sequences lexicographically.  We model that ordering exactly:
a character is encoded to one UTF-16 code unit, or to a surrogate pair for
code points above `0xFFFF`.
-/

/-- The UTF-16 code units of a single character. -/
def charUtf16 (c : Char) : List Nat :=
  if c.val.toNat < 0x10000 then [c.val.toNat]
  else [0xD800 + (c.val.toNat - 0x10000) / 0x400, 0xDC00 + (c.val.toNat - 0x10000) % 0x400]

/-- The UTF-16 code unit sequence of a string. -/
def utf16Units (s : String) : List Nat :=
  s.data.flatMap charUtf16

/-- Lexicographic less-or-equal on code unit sequences. -/
def unitsLe : List Nat → List Nat → Bool
  | [], _ => true
  | _ :: _, [] => false
  | a :: as, b :: bs =>
    if a < b then true
    else if b < a then false
    else unitsLe as bs

/-- The JavaScript default-sort string order: lexicographic comparison of
UTF-16 code unit sequences (less-or-equal). -/
def jsLe (a b : String) : Prop :=
  unitsLe (utf16Units a) (utf16Units b) = true

instance : DecidableRel jsLe := fun a b =>
  inferInstanceAs (Decidable (unitsLe (utf16Units a) (utf16Units b) = true))

/-!
## Set-based deduplication and sorting

`Array.from(new Set(models)).sort()` deduplicates keeping the first
occurrence of each element (JS `Set` insertion order) and then sorts with the
default comparator.
-/

/-- Deduplication keeping the first occurrence of each element, in order —
the iteration order of a JavaScript `Set` built from a list.  `seen` carries
the elements already emitted. -/
def dedupFirstAux (seen : List String) : List String → List String
  | [] => []
  | x :: xs =>
    if x ∈ seen then dedupFirstAux seen xs
    else x :: dedupFirstAux (x :: seen) xs

/-- `Array.from(new Set(l))`: first-occurrence deduplication. -/
def jsSetDedup (l : List String) : List String :=
  dedupFirstAux [] l

/-- `Array.from(new Set(l)).sort()`: deduplicate, then sort with the default
(UTF-16 lexicographic) comparator. -/
def setSort (l : List String) : List String :=
  List.insertionSort jsLe (jsSetDedup l)

/-!
## The scanner (`lib/workflow-scanner.ts`)

Every extraction function begins with `if (!workflow.nodes) return [];` and
then calls `workflow.nodes.filter(...)`.  A falsy `nodes` value (absent,
`null`, `false`, `0`, `""`, …) therefore yields zero nodes, while a truthy
non-array value reaches `.filter` and raises a `TypeError`.  `getNodeList`
captures exactly this guard; each extraction function is its composition with
a total function on the node list (the `...Core` functions below).
-/

/-- The `if (!workflow.nodes) return []` guard followed by use of
`workflow.nodes` as an array: falsy values give zero nodes, truthy non-array
values raise a `TypeError`. -/
def getNodeList (workflow : WorkflowJSON) : Except String (List WorkflowNode) :=
  match workflow.nodes with
  | none => .ok []
  | some (.arr ns) => .ok ns
  | some (.other v) =>
    if v.truthy then .error "TypeError: workflow.nodes.filter is not a function"
    else .ok []

/-- `node.widgets_values?.[widgetIndex]`: `undefined` when the array is
absent or the index is out of range. -/
def widgetValueAt (widgets : Option (List JValue)) (i : Nat) : JValue :=
  match widgets with
  | none => .undefined
  | some vs => vs.getD i .undefined

/-- Body of `extractModels` after the nodes guard: filter nodes by `type`,
read the widget value at the fixed index, keep it when
`value && value !== ''` (i.e. when it is truthy), stringify, deduplicate and
sort. -/
def extractModelsCore (nodes : List WorkflowNode) (nodeType : String)
    (widgetIndex : Nat) : List String :=
  let models := (nodes.filter (fun node => node.type == some nodeType)).filterMap
    (fun node =>
      let value := widgetValueAt node.widgets_values widgetIndex
      if value.truthy && !value.isEmptyStrLit then some value.toJSString else none)
  setSort models

/-- `extractModels(workflow, nodeType, widgetIndex)`. -/
def extractModels (workflow : WorkflowJSON) (nodeType : String)
    (widgetIndex : Nat) : Except String (List String) :=
  (getNodeList workflow).map (fun nodes => extractModelsCore nodes nodeType widgetIndex)

/-- JS truthiness of an optional string field (absent and `""` are falsy). -/
def strTruthy : Option String → Bool
  | none => false
  | some s => !s.isEmpty

/-- The entries of `node.properties?.models`, or none when the field chain is
absent (the source guards with `if (node.properties?.models)`; a present
array — even an empty one — is truthy and is then filtered). -/
def nodePropsModels (node : WorkflowNode) : List ModelEntry :=
  match node.properties with
  | none => []
  | some props =>
    match props.models with
    | none => []
    | some ms => ms

/-- Body of `extractModelsFromProperties` after the nodes guard: for nodes of
the given `type` with a `properties.models` array, collect the `name` of each
entry whose `directory` equals the given directory and whose `name` is
truthy, then deduplicate and sort. -/
def extractModelsFromPropertiesCore (nodes : List WorkflowNode)
    (nodeType directory : String) : List String :=
  let models := (nodes.filter (fun node => node.type == some nodeType)).flatMap
    (fun node =>
      ((nodePropsModels node).filter (fun model =>
        model.directory == some directory && strTruthy model.name)).filterMap
        (fun model => model.name))
  setSort models

/-- `extractModelsFromProperties(workflow, nodeType, directory)`. -/
def extractModelsFromProperties (workflow : WorkflowJSON)
    (nodeType directory : String) : Except String (List String) :=
  (getNodeList workflow).map
    (fun nodes => extractModelsFromPropertiesCore nodes nodeType directory)

/-- `mergeArrays(...arrays)`: flatten, drop empty strings, deduplicate, sort. -/
def mergeArrays (arrays : List (List String)) : List String :=
  let merged := (arrays.flatMap id).filter (fun item => !(item == ""))
  setSort merged

/-- The filter `node.properties?.cnr_id && node.properties.cnr_id !== 'comfy-core'`:
`cnr_id` must be truthy (present and nonempty) and differ from the core
sentinel. -/
def isCustomNodeB (node : WorkflowNode) : Bool :=
  match node.properties with
  | none => false
  | some props => strTruthy props.cnr_id && props.cnr_id != some "comfy-core"

/-- The projection `{node: cnr_id, version: ver || 'latest'}`: JS `||`
defaults a falsy `ver` (absent or `""`) to `"latest"`. -/
def projectCustomNode (node : WorkflowNode) : CustomNode :=
  { node := (node.properties.bind (·.cnr_id)).getD ""
    version :=
      match node.properties.bind (·.ver) with
      | none => "latest"
      | some v => if v.isEmpty then "latest" else v }

/-- One step of JavaScript `Map.prototype.set`: when the key is already
present the stored value is replaced in place (the key keeps its original
position); otherwise the pair is appended. -/
def mapInsert (m : List CustomNode) (item : CustomNode) : List CustomNode :=
  if m.any (fun y => y.node == item.node) then
    m.map (fun y => if y.node == item.node then item else y)
  else m ++ [item]

/-- `Array.from(new Map(l.map(item => [item.node, item])).values())`: one
entry per distinct key, keys in first-insertion order, each carrying the
last value set for that key. -/
def mapFromList (l : List CustomNode) : List CustomNode :=
  l.foldl mapInsert []

/-- Body of `extractCustomNodes` after the nodes guard. -/
def extractCustomNodesCore (nodes : List WorkflowNode) : List CustomNode :=
  let customNodes := (nodes.filter isCustomNodeB).map projectCustomNode
  mapFromList customNodes

/-- `extractCustomNodes(workflow)`. -/
def extractCustomNodes (workflow : WorkflowJSON) : Except String (List CustomNode) :=
  (getNodeList workflow).map extractCustomNodesCore

/-- The body of `scanWorkflow` as a total function of the node list: each
category assembled exactly as in the source. -/
def scanNodes (nodes : List WorkflowNode) : ScanResult :=
  let customNodes := extractCustomNodesCore nodes
  let vaeFromWidgets := extractModelsCore nodes "VAELoader" 0
  let vaeFromProps := extractModelsFromPropertiesCore nodes "VAELoader" "vae"
  let vae := mergeArrays [vaeFromWidgets, vaeFromProps]
  let checkpointSimple := extractModelsCore nodes "CheckpointLoaderSimple" 0
  let checkpointLoader := extractModelsCore nodes "CheckpointLoader" 0
  let loadCheckpoint := extractModelsCore nodes "LoadCheckpoint" 0
  let checkpoints := mergeArrays [checkpointSimple, checkpointLoader, loadCheckpoint]
  let loraLoader := extractModelsCore nodes "LoraLoader" 0
  let loraModelOnly := extractModelsCore nodes "LoraLoaderModelOnly" 0
  let loras := mergeArrays [loraLoader, loraModelOnly]
  let upscale_models := extractModelsCore nodes "UpscaleModelLoader" 0
  let controlnet := extractModelsCore nodes "ControlNetLoader" 0
  let clipLoader := extractModelsCore nodes "CLIPLoader" 0
  let dualClipLoader := extractModelsCore nodes "DualCLIPLoader" 0
  let clip := mergeArrays [clipLoader, dualClipLoader]
  let clip_vision := extractModelsCore nodes "CLIPVisionLoader" 0
  let text_encoders := extractModelsFromPropertiesCore nodes "DualCLIPLoader" "text_encoders"
  let unetLoader := extractModelsCore nodes "UnetLoader" 0
  let unetLoaderCaps := extractModelsCore nodes "UNETLoader" 0
  let ggufLoader := extractModelsCore nodes "GGUFLoader" 0
  let diffusionLoader := extractModelsCore nodes "DiffusionModelLoader" 0
  let diffusion_models := mergeArrays [unetLoader, unetLoaderCaps, ggufLoader, diffusionLoader]
  let embedding := extractModelsCore nodes "EmbeddingLoader" 0
  let style_models := extractModelsCore nodes "StyleModelLoader" 0
  let hypernetworks := extractModelsCore nodes "HypernetworkLoader" 0
  let gligen := extractModelsCore nodes "GLIGENLoader" 0
  { models :=
      { checkpoints := checkpoints
        vae := vae
        loras := loras
        upscale_models := upscale_models
        controlnet := controlnet
        clip := clip
        clip_vision := clip_vision
        text_encoders := text_encoders
        diffusion_models := diffusion_models
        embedding := embedding
        style_models := style_models
        hypernetworks := hypernetworks
        gligen := gligen }
    customNodes := customNodes }

/-- `scanWorkflow(workflowData)`, transcribed from the source: every helper
call re-checks the same `nodes` field, so the whole scan either fails on the
shared guard or succeeds with each category computed by its core function. -/
def scanWorkflow (workflowData : WorkflowJSON) : Except String ScanResult := do
  let customNodes ← extractCustomNodes workflowData
  let vaeFromWidgets ← extractModels workflowData "VAELoader" 0
  let vaeFromProps ← extractModelsFromProperties workflowData "VAELoader" "vae"
  let vae := mergeArrays [vaeFromWidgets, vaeFromProps]
  let checkpointSimple ← extractModels workflowData "CheckpointLoaderSimple" 0
  let checkpointLoader ← extractModels workflowData "CheckpointLoader" 0
  let loadCheckpoint ← extractModels workflowData "LoadCheckpoint" 0
  let checkpoints := mergeArrays [checkpointSimple, checkpointLoader, loadCheckpoint]
  let loraLoader ← extractModels workflowData "LoraLoader" 0
  let loraModelOnly ← extractModels workflowData "LoraLoaderModelOnly" 0
  let loras := mergeArrays [loraLoader, loraModelOnly]
  let upscale_models ← extractModels workflowData "UpscaleModelLoader" 0
  let controlnet ← extractModels workflowData "ControlNetLoader" 0
  let clipLoader ← extractModels workflowData "CLIPLoader" 0
  let dualClipLoader ← extractModels workflowData "DualCLIPLoader" 0
  let clip := mergeArrays [clipLoader, dualClipLoader]
  let clip_vision ← extractModels workflowData "CLIPVisionLoader" 0
  let text_encoders ← extractModelsFromProperties workflowData "DualCLIPLoader" "text_encoders"
  let unetLoader ← extractModels workflowData "UnetLoader" 0
  let unetLoaderCaps ← extractModels workflowData "UNETLoader" 0
  let ggufLoader ← extractModels workflowData "GGUFLoader" 0
  let diffusionLoader ← extractModels workflowData "DiffusionModelLoader" 0
  let diffusion_models := mergeArrays [unetLoader, unetLoaderCaps, ggufLoader, diffusionLoader]
  let embedding ← extractModels workflowData "EmbeddingLoader" 0
  let style_models ← extractModels workflowData "StyleModelLoader" 0
  let hypernetworks ← extractModels workflowData "HypernetworkLoader" 0
  let gligen ← extractModels workflowData "GLIGENLoader" 0
  let result : ScanResult :=
    { models :=
        { checkpoints := checkpoints
          vae := vae
          loras := loras
          upscale_models := upscale_models
          controlnet := controlnet
          clip := clip
          clip_vision := clip_vision
          text_encoders := text_encoders
          diffusion_models := diffusion_models
          embedding := embedding
          style_models := style_models
          hypernetworks := hypernetworks
          gligen := gligen }
      customNodes := customNodes }
  return result

/-!
## JavaScript `Map` deduplication

`mapFromList` models `new Map(list.map(item => [item.node, item]))` followed
by `.values()`: one entry per distinct key, keys in first-insertion order,
and for each key the **last** value set wins.
-/

/-- The keys of an accumulated map are distinct. -/
def KeysNodup (m : List CustomNode) : Prop :=
  (m.map (fun c => c.node)).Nodup

/-- The empty manifest: every category empty and no custom nodes. -/
def emptyScanResult : ScanResult :=
  { models :=
      { checkpoints := []
        vae := []
        loras := []
        upscale_models := []
        controlnet := []
        clip := []
        clip_vision := []
        text_encoders := []
        diffusion_models := []
        embedding := []
        style_models := []
        hypernetworks := []
        gligen := [] }
    customNodes := [] }

/-!
## Manifest serialization

A JSON rendering of the output manifest, with keys in the construction order
of the source (`models` with its thirteen categories, then `"custom-nodes"`),
used to state the byte-identical-output property.
-/

/-- Render a category as a JSON array of strings. -/
def serializeStringArray (l : List String) : String :=
  "[" ++ String.intercalate "," (l.map (fun s => "\"" ++ s ++ "\"")) ++ "]"

/-- Render one custom-node entry as a JSON object. -/
def serializeCustomNode (c : CustomNode) : String :=
  "\x7b\"node\":\"" ++ c.node ++ "\",\"version\":\"" ++ c.version ++ "\"\x7d"

/-- Render a scan result as JSON. -/
def serializeScanResult (r : ScanResult) : String :=
  "\x7b\"models\":\x7b" ++
    "\"checkpoints\":" ++ serializeStringArray r.models.checkpoints ++ "," ++
    "\"vae\":" ++ serializeStringArray r.models.vae ++ "," ++
    "\"loras\":" ++ serializeStringArray r.models.loras ++ "," ++
    "\"upscale_models\":" ++ serializeStringArray r.models.upscale_models ++ "," ++
    "\"controlnet\":" ++ serializeStringArray r.models.controlnet ++ "," ++
    "\"clip\":" ++ serializeStringArray r.models.clip ++ "," ++
    "\"clip_vision\":" ++ serializeStringArray r.models.clip_vision ++ "," ++
    "\"text_encoders\":" ++ serializeStringArray r.models.text_encoders ++ "," ++
    "\"diffusion_models\":" ++ serializeStringArray r.models.diffusion_models ++ "," ++
    "\"embedding\":" ++ serializeStringArray r.models.embedding ++ "," ++
    "\"style_models\":" ++ serializeStringArray r.models.style_models ++ "," ++
    "\"hypernetworks\":" ++ serializeStringArray r.models.hypernetworks ++ "," ++
    "\"gligen\":" ++ serializeStringArray r.models.gligen ++
  "\x7d,\"custom-nodes\":[" ++
    String.intercalate "," (r.customNodes.map serializeCustomNode) ++ "]\x7d"

/-!
## Concrete test inputs

Small workflow graphs used to instantiate the claims on concrete data.
-/

deriving instance DecidableEq for Except

/-- A node carrying only custom-package properties. -/
def packNode (pid : String) (v : Option String) : WorkflowNode :=
  { type := none
    widgets_values := none
    properties := some { cnr_id := some pid, ver := v, models := none } }

/-- A node of a given type carrying one positional widget value. -/
def loaderNode (t : String) (v : JValue) : WorkflowNode :=
  { type := some t, widgets_values := some [v], properties := none }

/-- Two nodes declaring the same package id with different versions. -/
def nsDupPack : List WorkflowNode :=
  [packNode "pack-x" (some "1.0"), packNode "pack-x" (some "2.0")]

def wfDupPack : WorkflowJSON := { nodes := some (.arr nsDupPack) }

/-- A workflow whose `nodes` field holds the truthy non-array value `1`. -/
def wfNodesNum : WorkflowJSON := { nodes := some (.other (.num 1)) }

/-- One upscale-loader node whose positional value is the number `0`. -/
def nsZeroWidget : List WorkflowNode :=
  [loaderNode "UpscaleModelLoader" (.num 0)]

def wfZeroWidget : WorkflowJSON := { nodes := some (.arr nsZeroWidget) }

/-- One upscale-loader node whose positional value is the number `7`. -/
def nsNumWidget : List WorkflowNode :=
  [loaderNode "UpscaleModelLoader" (.num 7)]

def wfNumWidget : WorkflowJSON := { nodes := some (.arr nsNumWidget) }

/-- Checkpoint loaders with a duplicate and out-of-order values. -/
def nsCkptDup : List WorkflowNode :=
  [loaderNode "CheckpointLoaderSimple" (.str "b.safetensors"),
   loaderNode "CheckpointLoaderSimple" (.str "a.safetensors"),
   loaderNode "CheckpointLoaderSimple" (.str "b.safetensors")]

def wfCkptDup : WorkflowJSON := { nodes := some (.arr nsCkptDup) }

/-- A core node and a custom node. -/
def nsCoreAndPack : List WorkflowNode :=
  [packNode "comfy-core" (some "0.3.0"), packNode "pack-y" none]

def wfCoreAndPack : WorkflowJSON := { nodes := some (.arr nsCoreAndPack) }

/-- The `properties.models` entry of the second vae loader below. -/
def vaeSideEntry : ModelEntry :=
  { directory := some "vae", name := some "v2.safetensors" }

/-- Properties carrying one side-channel vae model reference. -/
def vaeSideProps : NodeProperties :=
  { cnr_id := none, ver := none, models := some [vaeSideEntry] }

/-- One vae loader via positional argument, one via `properties.models`. -/
def nsVaeDual : List WorkflowNode :=
  [loaderNode "VAELoader" (.str "v1.safetensors"),
   { type := some "VAELoader", widgets_values := none, properties := some vaeSideProps }]

def wfVaeDual : WorkflowJSON := { nodes := some (.arr nsVaeDual) }

/-- Two checkpoint loaders under two historical aliases. -/
def nsCkptAliases : List WorkflowNode :=
  [loaderNode "CheckpointLoaderSimple" (.str "a.safetensors"),
   loaderNode "CheckpointLoader" (.str "b.safetensors")]

def wfCkptAliases : WorkflowJSON := { nodes := some (.arr nsCkptAliases) }

/-- A custom node whose `ver` is present but the empty string. -/
def nsEmptyVer : List WorkflowNode :=
  [packNode "my-pack" (some "")]

def wfEmptyVer : WorkflowJSON := { nodes := some (.arr nsEmptyVer) }

/-!
## Theorems
-/

theorem unitsLe_refl (u : List Nat) : unitsLe u u = true := by
  induction u with
  | nil => rfl
  | cons a as ih => simp [unitsLe, ih]

theorem unitsLe_total (u v : List Nat) : unitsLe u v = true ∨ unitsLe v u = true := by
  induction u generalizing v with
  | nil => exact Or.inl rfl
  | cons a as ih =>
    cases v with
    | nil => exact Or.inr rfl
    | cons b bs =>
      rcases Nat.lt_trichotomy a b with h | h | h
      · left; simp [unitsLe, h]
      · subst h
        rcases ih bs with h2 | h2
        · left; simp [unitsLe, h2]
        · right; simp [unitsLe, h2]
      · right; simp [unitsLe, h]

theorem unitsLe_trans {u v w : List Nat} (h1 : unitsLe u v = true)
    (h2 : unitsLe v w = true) : unitsLe u w = true := by
  induction u generalizing v w with
  | nil => rfl
  | cons a as ih =>
    cases v with
    | nil => simp [unitsLe] at h1
    | cons b bs =>
      cases w with
      | nil => simp [unitsLe] at h2
      | cons c cs =>
        simp only [unitsLe] at h1 h2 ⊢
        split_ifs at h1 h2 ⊢ <;>
          first
            | rfl
            | omega
            | exact ih h1 h2

instance : IsTotal String jsLe :=
  ⟨fun a b => unitsLe_total (utf16Units a) (utf16Units b)⟩

instance : IsTrans String jsLe :=
  ⟨fun _ _ _ h1 h2 => unitsLe_trans h1 h2⟩

theorem mem_dedupFirstAux {seen l : List String} {x : String} :
    x ∈ dedupFirstAux seen l ↔ x ∈ l ∧ x ∉ seen := by
  induction l generalizing seen with
  | nil => simp [dedupFirstAux]
  | cons a as ih =>
    by_cases h : a ∈ seen
    · simp only [dedupFirstAux, if_pos h, ih, List.mem_cons]
      constructor
      · rintro ⟨hx, hs⟩; exact ⟨Or.inr hx, hs⟩
      · rintro ⟨hx | hx, hs⟩
        · subst hx; exact absurd h hs
        · exact ⟨hx, hs⟩
    · simp only [dedupFirstAux, if_neg h, List.mem_cons, ih]
      constructor
      · rintro (hx | ⟨hx, hs⟩)
        · subst hx; exact ⟨Or.inl rfl, h⟩
        · simp only [List.mem_cons, not_or] at hs
          exact ⟨Or.inr hx, hs.2⟩
      · rintro ⟨hx | hx, hs⟩
        · exact Or.inl hx
        · by_cases hxa : x = a
          · exact Or.inl hxa
          · exact Or.inr ⟨hx, by simp [hxa, hs]⟩

theorem nodup_dedupFirstAux (seen l : List String) :
    (dedupFirstAux seen l).Nodup := by
  induction l generalizing seen with
  | nil => exact List.nodup_nil
  | cons a as ih =>
    by_cases h : a ∈ seen
    · simpa [dedupFirstAux, if_pos h] using ih seen
    · simp only [dedupFirstAux, if_neg h]
      refine List.nodup_cons.mpr ⟨?_, ih (a :: seen)⟩
      intro hmem
      exact (mem_dedupFirstAux.mp hmem).2 (List.mem_cons_self a seen)

theorem mem_jsSetDedup {l : List String} {x : String} :
    x ∈ jsSetDedup l ↔ x ∈ l := by
  simp [jsSetDedup, mem_dedupFirstAux]

theorem nodup_jsSetDedup (l : List String) : (jsSetDedup l).Nodup :=
  nodup_dedupFirstAux [] l

theorem mem_setSort {l : List String} {x : String} :
    x ∈ setSort l ↔ x ∈ l := by
  simp [setSort, List.mem_insertionSort, mem_jsSetDedup]

theorem nodup_setSort (l : List String) : (setSort l).Nodup :=
  ((List.perm_insertionSort jsLe (jsSetDedup l)).nodup_iff).mpr (nodup_jsSetDedup l)

theorem sorted_setSort (l : List String) : (setSort l).Sorted jsLe :=
  List.sorted_insertionSort jsLe (jsSetDedup l)

/-- `scanWorkflow` factors through the nodes guard. -/
theorem scanWorkflow_eq (workflowData : WorkflowJSON) :
    scanWorkflow workflowData = (getNodeList workflowData).map scanNodes := by
  cases h : getNodeList workflowData <;>
    simp [scanWorkflow, scanNodes, extractCustomNodes, extractModels,
      extractModelsFromProperties, h, Except.map, Bind.bind, Except.bind,
      Pure.pure, Except.pure]

/-!
## Basic lemmas about the extraction pipeline
-/

theorem scanWorkflow_ok_iff {wf : WorkflowJSON} {r : ScanResult} :
    scanWorkflow wf = Except.ok r ↔
      ∃ ns, getNodeList wf = Except.ok ns ∧ r = scanNodes ns := by
  rw [scanWorkflow_eq]
  cases h : getNodeList wf <;> simp [Except.map, eq_comm]

/-- A truthy value is not the empty-string literal. -/
theorem truthy_not_emptyStrLit {v : JValue} (h : v.truthy = true) :
    v.isEmptyStrLit = false := by
  cases v with
  | str s =>
    simp [JValue.truthy] at h
    simp [JValue.isEmptyStrLit, h]
  | _ => rfl

/-- Membership in `extractModels` output: exactly the stringifications of
truthy widget values at the given index of nodes of the given type. -/
theorem mem_extractModelsCore {nodes : List WorkflowNode} {t : String}
    {i : Nat} {s : String} :
    s ∈ extractModelsCore nodes t i ↔
      ∃ node ∈ nodes, node.type = some t ∧
        (widgetValueAt node.widgets_values i).truthy = true ∧
        (widgetValueAt node.widgets_values i).toJSString = s := by
  simp only [extractModelsCore, mem_setSort, List.mem_filterMap, List.mem_filter]
  constructor
  · rintro ⟨node, ⟨hmem, htype⟩, hf⟩
    by_cases hc :
        ((widgetValueAt node.widgets_values i).truthy &&
          !(widgetValueAt node.widgets_values i).isEmptyStrLit) = true
    · rw [if_pos hc] at hf
      rcases (Bool.and_eq_true _ _).mp hc with ⟨ht, _⟩
      exact ⟨node, hmem, by simpa using htype, ht, Option.some.inj hf⟩
    · rw [if_neg hc] at hf
      exact absurd hf (by simp)
  · rintro ⟨node, hmem, htype, ht, hs⟩
    refine ⟨node, ⟨hmem, by simp [htype]⟩, ?_⟩
    rw [if_pos (by simp [ht, truthy_not_emptyStrLit ht])]
    exact congrArg some hs

theorem strTruthy_some_iff {s : String} : strTruthy (some s) = true ↔ s ≠ "" := by
  show (!s.isEmpty) = true ↔ s ≠ ""
  cases he : s.isEmpty with
  | true =>
    have hs : s = "" := by simpa [String.isEmpty_iff] using he
    subst hs
    decide
  | false =>
    simp only [Bool.not_false, true_iff]
    intro hcon
    subst hcon
    exact absurd he (by decide)

theorem mem_nodePropsModels {node : WorkflowNode} {m : ModelEntry} :
    m ∈ nodePropsModels node ↔
      ∃ props, node.properties = some props ∧
        ∃ ms, props.models = some ms ∧ m ∈ ms := by
  cases hp : node.properties with
  | none => simp [nodePropsModels, hp]
  | some props =>
    cases hm : props.models with
    | none => simp [nodePropsModels, hp, hm]
    | some ms => simp [nodePropsModels, hp, hm]

/-- Membership in `extractModelsFromProperties` output: exactly the truthy
`name`s of `properties.models` entries with the expected `directory` on nodes
of the given type. -/
theorem mem_extractModelsFromPropertiesCore {nodes : List WorkflowNode}
    {t d : String} {s : String} :
    s ∈ extractModelsFromPropertiesCore nodes t d ↔
      ∃ node ∈ nodes, node.type = some t ∧
        ∃ props, node.properties = some props ∧
          ∃ ms, props.models = some ms ∧
            ∃ m ∈ ms, m.directory = some d ∧ m.name = some s ∧ s ≠ "" := by
  simp only [extractModelsFromPropertiesCore, mem_setSort, List.mem_flatMap,
    List.mem_filter, List.mem_filterMap]
  constructor
  · rintro ⟨node, ⟨hmem, htype⟩, m, ⟨hmP, hcond⟩, hname⟩
    rcases (Bool.and_eq_true _ _).mp hcond with ⟨hdir, hnt⟩
    rcases mem_nodePropsModels.mp hmP with ⟨props, hp, ms, hm, hms⟩
    refine ⟨node, hmem, by simpa using htype, props, hp, ms, hm, m, hms,
      by simpa using hdir, hname, ?_⟩
    rw [hname] at hnt
    exact strTruthy_some_iff.mp hnt
  · rintro ⟨node, hmem, htype, props, hp, ms, hm, m, hms, hdir, hname, hne⟩
    refine ⟨node, ⟨hmem, by simp [htype]⟩, m,
      ⟨mem_nodePropsModels.mpr ⟨props, hp, ms, hm, hms⟩, ?_⟩, hname⟩
    simp [hdir, hname, strTruthy_some_iff, hne]

/-- Membership in `mergeArrays` output: a nonempty string occurring in one of
the merged arrays. -/
theorem mem_mergeArrays {arrays : List (List String)} {s : String} :
    s ∈ mergeArrays arrays ↔ s ≠ "" ∧ ∃ l ∈ arrays, s ∈ l := by
  simp only [mergeArrays, mem_setSort, List.mem_filter, List.mem_flatMap]
  constructor
  · rintro ⟨⟨l, hl, hs⟩, hne⟩
    exact ⟨by simpa using hne, l, hl, by simpa using hs⟩
  · rintro ⟨hne, l, hl, hs⟩
    exact ⟨⟨l, hl, by simpa using hs⟩, by simpa using hne⟩

theorem keysNodup_nil : KeysNodup [] := List.nodup_nil

theorem keysNodup_mapInsert {m : List CustomNode} (x : CustomNode)
    (h : KeysNodup m) : KeysNodup (mapInsert m x) := by
  unfold mapInsert
  by_cases hany : m.any (fun y => y.node == x.node)
  · rw [if_pos hany]
    have : (m.map (fun y => if y.node == x.node then x else y)).map (fun c => c.node) =
        m.map (fun c => c.node) := by
      rw [List.map_map]
      refine List.map_congr_left ?_
      intro y _
      by_cases hy : y.node == x.node
      · simp only [Function.comp, if_pos hy]
        exact (eq_of_beq hy).symm
      · simp only [Function.comp, if_neg hy]
    unfold KeysNodup
    rw [this]
    exact h
  · rw [if_neg hany]
    unfold KeysNodup
    rw [List.map_append]
    simp only [List.map_cons, List.map_nil]
    rw [List.nodup_append]
    refine ⟨h, List.nodup_singleton _, ?_⟩
    intro k hk
    simp only [List.mem_singleton]
    intro hkx
    subst hkx
    rcases List.mem_map.mp hk with ⟨y, hy, hyk⟩
    exact absurd (List.any_eq_true.mpr ⟨y, hy, by simp [hyk]⟩) hany

/-- With distinct keys, at most one entry matches any given key. -/
theorem filter_key_length_le_one {m : List CustomNode} (k : String)
    (h : KeysNodup m) : (m.filter (fun c => c.node == k)).length ≤ 1 := by
  induction m with
  | nil => simp
  | cons a as ih =>
    unfold KeysNodup at h
    simp only [List.map_cons, List.nodup_cons] at h
    by_cases ha : a.node == k
    · have hk : a.node = k := eq_of_beq ha
      have : as.filter (fun c => c.node == k) = [] := by
        rw [List.filter_eq_nil_iff]
        intro c hc hck
        exact h.1 (List.mem_map.mpr ⟨c, hc, by rw [eq_of_beq hck, hk]⟩)
      simp [List.filter_cons, ha, this]
    · simpa [List.filter_cons, ha] using ih h.2

/-- Effect of one `Map.set` on the entries for a fixed key: setting key `k`
makes `[x]` the entries for `k`; setting any other key leaves them unchanged. -/
theorem filter_mapInsert {m : List CustomNode} (x : CustomNode) (k : String)
    (h : KeysNodup m) :
    (mapInsert m x).filter (fun c => c.node == k) =
      if x.node == k then [x] else m.filter (fun c => c.node == k) := by
  unfold mapInsert
  by_cases hany : m.any (fun y => y.node == x.node)
  · rw [if_pos hany]
    by_cases hx : x.node == k
    · rw [if_pos hx]
      have hxk : x.node = k := eq_of_beq hx
      rw [List.filter_map]
      have hpf : (fun c : CustomNode => c.node == k) ∘
          (fun y => if y.node == x.node then x else y) =
            fun y : CustomNode => y.node == k := by
        funext y
        by_cases hy : y.node == x.node
        · simp only [Function.comp, if_pos hy, hx]
          rw [eq_of_beq hy, hxk]
          simp
        · simp only [Function.comp, if_neg hy]
      rw [hpf]
      have hlen := filter_key_length_le_one k h
      have hne : m.filter (fun c => c.node == k) ≠ [] := by
        rcases List.any_eq_true.mp hany with ⟨y, hy, hyx⟩
        intro hempty
        have : y ∈ m.filter (fun c => c.node == k) :=
          List.mem_filter.mpr ⟨hy, by rw [eq_of_beq hyx, hxk]; simp⟩
        rw [hempty] at this
        exact absurd this (List.not_mem_nil y)
      rcases hfe : m.filter (fun c => c.node == k) with _ | ⟨c, cs⟩
      · exact absurd hfe hne
      · rw [hfe] at hlen
        simp only [List.length_cons, Nat.succ_le_succ_iff, Nat.le_zero,
          List.length_eq_zero] at hlen
        subst hlen
        have hc : c.node = x.node := by
          have hcm : c ∈ m.filter (fun c => c.node == k) := by
            rw [hfe]; exact List.mem_cons_self c []
          have := (List.mem_filter.mp hcm).2
          rw [eq_of_beq this, hxk]
        rw [hfe]
        simp [hc]
    · rw [if_neg hx]
      rw [List.filter_map]
      have hxkf : (x.node == k) = false := by
        cases hxk2 : x.node == k with
        | false => rfl
        | true => exact absurd hxk2 hx
      have hpf : (fun c : CustomNode => c.node == k) ∘
          (fun y => if y.node == x.node then x else y) =
            fun y : CustomNode => y.node == k && !(y.node == x.node) := by
        funext y
        by_cases hy : y.node == x.node
        · simp [Function.comp, hy, hxkf]
        · simp [Function.comp, hy]
      rw [hpf]
      have hff : m.filter (fun y => y.node == k && !(y.node == x.node)) =
          m.filter (fun c => c.node == k) := by
        refine List.filter_congr ?_
        intro c _
        by_cases hck : c.node == k
        · have : (c.node == x.node) = false := by
            cases hcx : c.node == x.node with
            | false => rfl
            | true =>
              exact absurd (show (x.node == k) = true by
                rw [← eq_of_beq hcx, eq_of_beq hck]; simp) hx
          simp [hck, this]
        · simp [hck]
      rw [hff]
      refine (List.map_congr_left ?_).trans (List.map_id _)
      intro c hc
      have hck := (List.mem_filter.mp hc).2
      have hcxf : (c.node == x.node) = false := by
        cases hcx : c.node == x.node with
        | false => rfl
        | true =>
          exact absurd (show (x.node == k) = true by
            rw [← eq_of_beq hcx, eq_of_beq hck]; simp) hx
      simp [hcxf]
  · rw [if_neg hany]
    rw [List.filter_append]
    by_cases hx : x.node == k
    · rw [List.filter_cons, if_pos (by simpa using hx)]
      have : m.filter (fun c => c.node == k) = [] := by
        rw [List.filter_eq_nil_iff]
        intro c hc hck
        exact absurd (List.any_eq_true.mpr ⟨c, hc,
          by rw [eq_of_beq hck, ← eq_of_beq hx]; simp⟩) hany
      simp [this, hx]
    · rw [List.filter_cons, if_neg (by simpa using hx)]
      simp [hx]


theorem mem_mapInsert {c x : CustomNode} {m : List CustomNode}
    (h : c ∈ mapInsert m x) : c ∈ m ∨ c = x := by
  unfold mapInsert at h
  by_cases hany : m.any (fun y => y.node == x.node)
  · rw [if_pos hany] at h
    rcases List.mem_map.mp h with ⟨y, hy, hyc⟩
    by_cases hyx : y.node == x.node
    · rw [if_pos hyx] at hyc
      exact Or.inr hyc.symm
    · rw [if_neg hyx] at hyc
      subst hyc
      exact Or.inl hy
  · rw [if_neg hany] at h
    rcases List.mem_append.mp h with h | h
    · exact Or.inl h
    · exact Or.inr (by simpa using h)

theorem mem_foldl_mapInsert {c : CustomNode} :
    ∀ {l acc : List CustomNode}, c ∈ List.foldl mapInsert acc l → c ∈ acc ∨ c ∈ l
  | [], _, h => Or.inl h
  | x :: xs, acc, h => by
    rw [List.foldl_cons] at h
    rcases mem_foldl_mapInsert h with h2 | h2
    · rcases mem_mapInsert h2 with h3 | h3
      · exact Or.inl h3
      · exact Or.inr (by simp [h3])
    · exact Or.inr (List.mem_cons_of_mem x h2)

/-- Every entry of the deduplicated map was an entry of the original list. -/
theorem mem_mapFromList {c : CustomNode} {l : List CustomNode}
    (h : c ∈ mapFromList l) : c ∈ l := by
  rcases mem_foldl_mapInsert h with h2 | h2
  · exact absurd h2 (List.not_mem_nil c)
  · exact h2

theorem filter_foldl_mapInsert (k : String) :
    ∀ (l acc : List CustomNode), KeysNodup acc →
      (List.foldl mapInsert acc l).filter (fun c => c.node == k) =
        match (l.filter (fun c => c.node == k)).getLast? with
        | none => acc.filter (fun c => c.node == k)
        | some c => [c]
  | [], acc, _ => by simp
  | x :: xs, acc, h => by
    rw [List.foldl_cons,
      filter_foldl_mapInsert k xs (mapInsert acc x) (keysNodup_mapInsert x h),
      List.filter_cons]
    by_cases hx : x.node == k
    · rw [if_pos (by simpa using hx)]
      cases hfe : xs.filter (fun c => c.node == k) with
      | nil =>
        simp only [List.getLast?_nil, List.getLast?_singleton]
        rw [filter_mapInsert x k h, if_pos hx]
      | cons y ys =>
        rw [List.getLast?_cons_cons]
        cases hl : (y :: ys).getLast? with
        | none => simp at hl
        | some c => rfl
    · rw [if_neg (by simpa using hx)]
      cases hl : (xs.filter (fun c => c.node == k)).getLast? with
      | none => rw [filter_mapInsert x k h, if_neg hx]
      | some c => rfl

/-- The entries of the deduplicated map for one key: the last list element
with that key, if any. -/
theorem filter_mapFromList (l : List CustomNode) (k : String) :
    (mapFromList l).filter (fun c => c.node == k) =
      match (l.filter (fun c => c.node == k)).getLast? with
      | none => []
      | some c => [c] := by
  have h := filter_foldl_mapInsert k l [] keysNodup_nil
  rw [mapFromList]
  rw [h]
  cases (l.filter (fun c => c.node == k)).getLast? <;> rfl

/-- A node passing the custom-node filter exposes a truthy, non-core
`cnr_id`, which the projection records verbatim. -/
theorem isCustomNodeB_spec {node : WorkflowNode} (h : isCustomNodeB node = true) :
    ∃ props, node.properties = some props ∧ ∃ pid, props.cnr_id = some pid ∧
      pid ≠ "" ∧ pid ≠ "comfy-core" ∧ (projectCustomNode node).node = pid := by
  cases hp : node.properties with
  | none => rw [isCustomNodeB, hp] at h; exact absurd h (by simp)
  | some props =>
    rw [isCustomNodeB, hp] at h
    rcases (Bool.and_eq_true _ _).mp h with ⟨ht, hne⟩
    cases hc : props.cnr_id with
    | none => rw [hc] at ht; exact absurd ht (by simp [strTruthy])
    | some pid =>
      rw [hc] at ht hne
      refine ⟨props, rfl, pid, hc, strTruthy_some_iff.mp ht, ?_, ?_⟩
      · intro hcon
        subst hcon
        simp at hne
      · simp [projectCustomNode, hp, hc]

/-- A falsy `ver` (absent or empty) projects to version `"latest"`. -/
theorem projectCustomNode_version_latest {node : WorkflowNode}
    (h : node.properties.bind (fun p => p.ver) = none ∨
      node.properties.bind (fun p => p.ver) = some "") :
    (projectCustomNode node).version = "latest" := by
  rcases h with h | h
  · simp [projectCustomNode, h]
  · simp only [projectCustomNode, h]
    rw [if_pos (by decide)]

theorem nodup_sorted_extractModelsCore (ns : List WorkflowNode) (t : String)
    (i : Nat) :
    (extractModelsCore ns t i).Nodup ∧ (extractModelsCore ns t i).Sorted jsLe :=
  ⟨nodup_setSort _, sorted_setSort _⟩

theorem nodup_sorted_extractModelsFromPropertiesCore (ns : List WorkflowNode)
    (t d : String) :
    (extractModelsFromPropertiesCore ns t d).Nodup ∧
      (extractModelsFromPropertiesCore ns t d).Sorted jsLe :=
  ⟨nodup_setSort _, sorted_setSort _⟩

theorem nodup_sorted_mergeArrays (arrays : List (List String)) :
    (mergeArrays arrays).Nodup ∧ (mergeArrays arrays).Sorted jsLe :=
  ⟨nodup_setSort _, sorted_setSort _⟩

/-- A node with a present, nonempty, non-core `cnr_id` passes the
custom-node filter. -/
theorem isCustomNodeB_of {node : WorkflowNode} {props : NodeProperties}
    {pid : String} (hp : node.properties = some props)
    (hc : props.cnr_id = some pid) (h1 : pid ≠ "") (h2 : pid ≠ "comfy-core") :
    isCustomNodeB node = true := by
  rw [isCustomNodeB, hp]
  refine (Bool.and_eq_true _ _).mpr ⟨?_, ?_⟩
  · rw [hc]
    exact strTruthy_some_iff.mpr h1
  · rw [hc]
    simp [h2]

/-!
## Claims
-/

/-- C1 (counterexample): two nodes both declare `cnr_id = "pack-x"`, the
first with `ver = "1.0"` and the second with `ver = "2.0"`.  The returned
list has exactly one entry for `"pack-x"`, but its version is `"2.0"` — the
**last** node's version, not the first's as the claim states. -/
theorem C1_counterexample :
    extractCustomNodes wfDupPack =
      Except.ok [{ node := "pack-x", version := "2.0" }] ∧
    extractCustomNodes wfDupPack ≠
      Except.ok [{ node := "pack-x", version := "1.0" }] := by
  decide

/-- C1 (amended): when a `packageId` occurs on several nodes, the
custom-nodes list contains exactly one entry for it, and that entry is the
projection (`{node, version}`) of the **last** node with that `packageId`
in iteration order. -/
theorem C1_custom_dedup_last_wins (wf : WorkflowJSON) (ns : List WorkflowNode)
    (pid : String) (h : getNodeList wf = Except.ok ns)
    (hm : ((ns.filter isCustomNodeB).map projectCustomNode).filter
      (fun c => c.node == pid) ≠ []) :
    ∃ cs, extractCustomNodes wf = Except.ok cs ∧
      cs.filter (fun c => c.node == pid) =
        [(((ns.filter isCustomNodeB).map projectCustomNode).filter
          (fun c => c.node == pid)).getLast hm] := by
  refine ⟨extractCustomNodesCore ns, by simp [extractCustomNodes, h, Except.map], ?_⟩
  rw [extractCustomNodesCore]
  rw [filter_mapFromList]
  rw [List.getLast?_eq_getLast _ hm]

/-- C1 (witness): instantiating the amended claim on the two-node example:
the single surviving entry is the projection of the last `"pack-x"` node. -/
theorem C1_witness :
    ∃ cs, extractCustomNodes wfDupPack = Except.ok cs ∧
      cs.filter (fun c => c.node == "pack-x") =
        [(((nsDupPack.filter isCustomNodeB).map projectCustomNode).filter
          (fun c => c.node == "pack-x")).getLast (by decide)] :=
  C1_custom_dedup_last_wins wfDupPack nsDupPack "pack-x" rfl (by decide)

/-- C2 (counterexample): a workflow whose `nodes` field holds the truthy
non-array value `1` makes `scanWorkflow` raise a `TypeError` (the guard
`if (!workflow.nodes)` passes it through to `.filter`), instead of
returning the empty manifest as the claim states. -/
theorem C2_counterexample :
    scanWorkflow wfNodesNum =
      Except.error "TypeError: workflow.nodes.filter is not a function" ∧
    scanWorkflow wfNodesNum ≠ Except.ok emptyScanResult := by
  decide

/-- C2 (amended): a workflow whose `nodes` field is absent — or holds a
**falsy** non-array value (`null`, `false`, `0`, `""`, `NaN`) — scans to the
empty manifest; a **truthy** non-array value (any nonzero number, nonempty
string, or object) instead raises a `TypeError` when the scanner calls
`.filter` on it.  (The repository's caller validates `Array.isArray` before
invoking the scanner.) -/
theorem C2_nodes_guard :
    (∀ wf : WorkflowJSON, wf.nodes = none →
      scanWorkflow wf = Except.ok emptyScanResult) ∧
    (∀ (wf : WorkflowJSON) (v : NonArrayValue),
      wf.nodes = some (NodesValue.other v) →
        ((v.truthy = false → scanWorkflow wf = Except.ok emptyScanResult) ∧
         (v.truthy = true → scanWorkflow wf =
           Except.error "TypeError: workflow.nodes.filter is not a function"))) := by
  constructor
  · intro wf h
    rw [scanWorkflow_eq, getNodeList, h]
    rfl
  · intro wf v h
    constructor
    · intro hv
      rw [scanWorkflow_eq, getNodeList, h]
      dsimp only
      rw [if_neg (by simp [hv])]
      rfl
    · intro hv
      rw [scanWorkflow_eq, getNodeList, h]
      dsimp only
      rw [if_pos hv]
      rfl

/-- C2 (witness): the empty string (falsy) scans to the empty manifest; a
plain object (truthy, non-array) raises the `TypeError`. -/
theorem C2_witness :
    (scanWorkflow { nodes := none } = Except.ok emptyScanResult) ∧
    (scanWorkflow { nodes := some (NodesValue.other (NonArrayValue.str "")) } =
      Except.ok emptyScanResult) ∧
    (scanWorkflow { nodes := some (NodesValue.other NonArrayValue.obj) } =
      Except.error "TypeError: workflow.nodes.filter is not a function") :=
  ⟨C2_nodes_guard.1 _ rfl,
   (C2_nodes_guard.2 _ _ rfl).1 (by decide),
   (C2_nodes_guard.2 _ _ rfl).2 (by decide)⟩

/-- C3 (counterexample): an upscale-loader node whose positional value at
index 0 is the number `0` contributes nothing — `0` is falsy, so the check
`value && value !== ''` rejects it — whereas the claim says `0` is
stringified and included as `"0"`. -/
theorem C3_counterexample :
    (scanWorkflow wfZeroWidget).map (fun r => r.models.upscale_models) =
      Except.ok [] ∧
    (scanWorkflow wfZeroWidget).map (fun r => r.models.upscale_models) ≠
      Except.ok ["0"] := by
  decide

/-- C3 (amended): a positional value contributes to its category exactly
when it is **truthy** in the JavaScript sense — so besides absent values and
the empty string, the number `0`, `false`, and `null` are also excluded —
and every truthy value is stringified and included. -/
theorem C3_truthy_widget_values (wf : WorkflowJSON) (ns : List WorkflowNode)
    (t : String) (i : Nat) (s : String) (h : getNodeList wf = Except.ok ns) :
    extractModels wf t i = Except.ok (extractModelsCore ns t i) ∧
    (s ∈ extractModelsCore ns t i ↔
      ∃ node ∈ ns, node.type = some t ∧
        (widgetValueAt node.widgets_values i).truthy = true ∧
        (widgetValueAt node.widgets_values i).toJSString = s) :=
  ⟨by simp [extractModels, h, Except.map], mem_extractModelsCore⟩

/-- C3 (witness): the truthy number `7` is stringified and included. -/
theorem C3_witness : "7" ∈ extractModelsCore nsNumWidget "UpscaleModelLoader" 0 :=
  (C3_truthy_widget_values wfNumWidget nsNumWidget "UpscaleModelLoader" 0 "7"
    rfl).2.mpr
    ⟨loaderNode "UpscaleModelLoader" (.num 7), List.mem_singleton_self _,
      rfl, rfl, rfl⟩

/-- C4: every one of the thirteen categories returned by `scanWorkflow` has
no duplicate elements and is sorted ascending in the UTF-16 lexicographic
string order used by the JavaScript default sort. -/
theorem C4_categories_nodup_sorted (wf : WorkflowJSON) (r : ScanResult)
    (h : scanWorkflow wf = Except.ok r) :
    (r.models.checkpoints.Nodup ∧ r.models.checkpoints.Sorted jsLe) ∧
    (r.models.vae.Nodup ∧ r.models.vae.Sorted jsLe) ∧
    (r.models.loras.Nodup ∧ r.models.loras.Sorted jsLe) ∧
    (r.models.upscale_models.Nodup ∧ r.models.upscale_models.Sorted jsLe) ∧
    (r.models.controlnet.Nodup ∧ r.models.controlnet.Sorted jsLe) ∧
    (r.models.clip.Nodup ∧ r.models.clip.Sorted jsLe) ∧
    (r.models.clip_vision.Nodup ∧ r.models.clip_vision.Sorted jsLe) ∧
    (r.models.text_encoders.Nodup ∧ r.models.text_encoders.Sorted jsLe) ∧
    (r.models.diffusion_models.Nodup ∧ r.models.diffusion_models.Sorted jsLe) ∧
    (r.models.embedding.Nodup ∧ r.models.embedding.Sorted jsLe) ∧
    (r.models.style_models.Nodup ∧ r.models.style_models.Sorted jsLe) ∧
    (r.models.hypernetworks.Nodup ∧ r.models.hypernetworks.Sorted jsLe) ∧
    (r.models.gligen.Nodup ∧ r.models.gligen.Sorted jsLe) := by
  rcases scanWorkflow_ok_iff.mp h with ⟨ns, _, hr⟩
  subst hr
  exact ⟨nodup_sorted_mergeArrays _, nodup_sorted_mergeArrays _,
    nodup_sorted_mergeArrays _, nodup_sorted_extractModelsCore _ _ _,
    nodup_sorted_extractModelsCore _ _ _, nodup_sorted_mergeArrays _,
    nodup_sorted_extractModelsCore _ _ _,
    nodup_sorted_extractModelsFromPropertiesCore _ _ _,
    nodup_sorted_mergeArrays _, nodup_sorted_extractModelsCore _ _ _,
    nodup_sorted_extractModelsCore _ _ _, nodup_sorted_extractModelsCore _ _ _,
    nodup_sorted_extractModelsCore _ _ _⟩

/-- C4 (witness): the checkpoint list extracted from a graph with a
duplicated, out-of-order pair of checkpoint names is duplicate-free and
sorted. -/
theorem C4_witness :
    (scanNodes nsCkptDup).models.checkpoints.Nodup ∧
    (scanNodes nsCkptDup).models.checkpoints.Sorted jsLe :=
  (C4_categories_nodup_sorted wfCkptDup (scanNodes nsCkptDup) rfl).1

/-- C5: no entry of the custom-nodes list has node identifier
`"comfy-core"` — the filter excludes the core sentinel before projection,
and deduplication only keeps projected entries. -/
theorem C5_no_core_sentinel (wf : WorkflowJSON) (r : ScanResult)
    (h : scanWorkflow wf = Except.ok r) :
    ∀ c ∈ r.customNodes, c.node ≠ "comfy-core" := by
  rcases scanWorkflow_ok_iff.mp h with ⟨ns, _, hr⟩
  subst hr
  intro c hc
  have hc2 : c ∈ (ns.filter isCustomNodeB).map projectCustomNode :=
    mem_mapFromList hc
  rcases List.mem_map.mp hc2 with ⟨n, hn, hproj⟩
  have hb : isCustomNodeB n = true := List.of_mem_filter hn
  rcases isCustomNodeB_spec hb with ⟨props, _, pid, _, _, hpid, hnode⟩
  rw [← hproj, hnode]
  exact hpid

/-- C5 (witness): on a graph containing a `comfy-core` node and a custom
node, the core entry does not appear in the output. -/
theorem C5_witness :
    CustomNode.mk "comfy-core" "0.3.0" ∉ (scanNodes nsCoreAndPack).customNodes :=
  fun hmem =>
    C5_no_core_sentinel wfCoreAndPack (scanNodes nsCoreAndPack) rfl _ hmem rfl

/-- C6: the vae category is the merge (dedup + sort) of the positional
extraction over `VAELoader` at index 0 with the `properties.models`
extraction over `VAELoader` at directory `"vae"`; and the two-node example
of the claim yields `["v1.safetensors", "v2.safetensors"]`. -/
theorem C6_vae_dual_encoding :
    (∀ (wf : WorkflowJSON) (ns : List WorkflowNode) (r : ScanResult),
      getNodeList wf = Except.ok ns → scanWorkflow wf = Except.ok r →
        r.models.vae = mergeArrays [extractModelsCore ns "VAELoader" 0,
          extractModelsFromPropertiesCore ns "VAELoader" "vae"]) ∧
    (scanWorkflow wfVaeDual).map (fun r => r.models.vae) =
      Except.ok ["v1.safetensors", "v2.safetensors"] := by
  constructor
  · intro wf ns r hg h
    rcases scanWorkflow_ok_iff.mp h with ⟨ns2, hg2, hr⟩
    rw [hg] at hg2
    injection hg2 with hns
    subst hns
    subst hr
    rfl
  · decide

/-- C6 (witness): instantiating the general conjunct on the two-node
example graph. -/
theorem C6_witness :
    (scanNodes nsVaeDual).models.vae =
      mergeArrays [extractModelsCore nsVaeDual "VAELoader" 0,
        extractModelsFromPropertiesCore nsVaeDual "VAELoader" "vae"] :=
  C6_vae_dual_encoding.1 wfVaeDual nsVaeDual (scanNodes nsVaeDual) rfl rfl

/-- C7: the checkpoints category is the merge (dedup + sort) of the
positional extractions over the three historical aliases
`CheckpointLoaderSimple`, `CheckpointLoader` and `LoadCheckpoint`; and a
graph with one node of each of two aliases yields
`["a.safetensors", "b.safetensors"]`. -/
theorem C7_checkpoint_aliases :
    (∀ (wf : WorkflowJSON) (ns : List WorkflowNode) (r : ScanResult),
      getNodeList wf = Except.ok ns → scanWorkflow wf = Except.ok r →
        r.models.checkpoints =
          mergeArrays [extractModelsCore ns "CheckpointLoaderSimple" 0,
            extractModelsCore ns "CheckpointLoader" 0,
            extractModelsCore ns "LoadCheckpoint" 0]) ∧
    (scanWorkflow wfCkptAliases).map (fun r => r.models.checkpoints) =
      Except.ok ["a.safetensors", "b.safetensors"] := by
  constructor
  · intro wf ns r hg h
    rcases scanWorkflow_ok_iff.mp h with ⟨ns2, hg2, hr⟩
    rw [hg] at hg2
    injection hg2 with hns
    subst hns
    subst hr
    rfl
  · decide

/-- C7 (witness): instantiating the general conjunct on the two-alias
example graph. -/
theorem C7_witness :
    (scanNodes nsCkptAliases).models.checkpoints =
      mergeArrays [extractModelsCore nsCkptAliases "CheckpointLoaderSimple" 0,
        extractModelsCore nsCkptAliases "CheckpointLoader" 0,
        extractModelsCore nsCkptAliases "LoadCheckpoint" 0] :=
  C7_checkpoint_aliases.1 wfCkptAliases nsCkptAliases (scanNodes nsCkptAliases)
    rfl rfl

/-- C8: `scanWorkflow` is a deterministic pure projection of its input:
repeated invocations agree (also after JSON serialization, byte for byte),
and the result depends only on the value of the `nodes` field. -/
theorem C8_deterministic_pure :
    (∀ g : WorkflowJSON, scanWorkflow g = scanWorkflow g ∧
      (scanWorkflow g).map serializeScanResult =
        (scanWorkflow g).map serializeScanResult) ∧
    (∀ g1 g2 : WorkflowJSON, g1.nodes = g2.nodes →
      scanWorkflow g1 = scanWorkflow g2) := by
  refine ⟨fun g => ⟨rfl, rfl⟩, fun g1 g2 h => ?_⟩
  cases g1
  cases g2
  cases h
  rfl

/-- C8 (witness): two syntactically distinct workflow values with the same
`nodes` field scan identically. -/
theorem C8_witness :
    scanWorkflow { nodes := some (NodesValue.arr nsCkptAliases) } =
      scanWorkflow wfCkptAliases :=
  C8_deterministic_pure.2 _ _ rfl

/-- C9: the empty object and the empty node array both scan to the empty
manifest: all thirteen categories empty and no custom nodes. -/
theorem C9_empty_inputs :
    scanWorkflow { nodes := none } = Except.ok emptyScanResult ∧
    scanWorkflow { nodes := some (NodesValue.arr []) } =
      Except.ok emptyScanResult := by
  decide

/-- C10: a package id declared with a falsy `ver` (absent **or** present but
empty — JavaScript `||` does not distinguish the two) is recorded in the
custom-nodes list with version `"latest"`.  The hypothesis quantifies over
all nodes declaring the package id, since the surviving entry is the
projection of the last of them. -/
theorem C10_falsy_ver_latest (wf : WorkflowJSON) (ns : List WorkflowNode)
    (node : WorkflowNode) (pid : String)
    (h : getNodeList wf = Except.ok ns) (hmem : node ∈ ns)
    (hcnr : node.properties.bind (fun p => p.cnr_id) = some pid)
    (hne : pid ≠ "") (hnc : pid ≠ "comfy-core")
    (hver : ∀ n ∈ ns, n.properties.bind (fun p => p.cnr_id) = some pid →
      (n.properties.bind (fun p => p.ver) = none ∨
       n.properties.bind (fun p => p.ver) = some "")) :
    ∃ cs, extractCustomNodes wf = Except.ok cs ∧
      CustomNode.mk pid "latest" ∈ cs := by
  refine ⟨extractCustomNodesCore ns,
    by simp [extractCustomNodes, h, Except.map], ?_⟩
  rcases Option.bind_eq_some.mp hcnr with ⟨props, hp, hc⟩
  have hb : isCustomNodeB node = true := isCustomNodeB_of hp hc hne hnc
  have hmemP : projectCustomNode node ∈
      (ns.filter isCustomNodeB).map projectCustomNode :=
    List.mem_map.mpr ⟨node, List.mem_filter.mpr ⟨hmem, hb⟩, rfl⟩
  have hnodeEq : (projectCustomNode node).node = pid := by
    simp [projectCustomNode, hp, hc]
  have hfne : ((ns.filter isCustomNodeB).map projectCustomNode).filter
      (fun c => c.node == pid) ≠ [] := by
    intro hempty
    have hin : projectCustomNode node ∈
        ((ns.filter isCustomNodeB).map projectCustomNode).filter
          (fun c => c.node == pid) :=
      List.mem_filter.mpr ⟨hmemP, by simp [hnodeEq]⟩
    rw [hempty] at hin
    exact absurd hin (List.not_mem_nil _)
  have hfl := filter_mapFromList
    ((ns.filter isCustomNodeB).map projectCustomNode) pid
  rw [List.getLast?_eq_getLast _ hfne] at hfl
  have hcmem : (((ns.filter isCustomNodeB).map projectCustomNode).filter
      (fun c => c.node == pid)).getLast hfne ∈
        ((ns.filter isCustomNodeB).map projectCustomNode).filter
          (fun c => c.node == pid) :=
    List.getLast_mem hfne
  have hckeyB : (((((ns.filter isCustomNodeB).map projectCustomNode).filter
      (fun c => c.node == pid)).getLast hfne).node == pid) = true :=
    (List.mem_filter.mp hcmem).2
  have hckey : ((((ns.filter isCustomNodeB).map projectCustomNode).filter
      (fun c => c.node == pid)).getLast hfne).node = pid :=
    eq_of_beq hckeyB
  rcases List.mem_map.mp (List.mem_of_mem_filter hcmem) with ⟨n2, hn2, hproj2⟩
  have hb2 : isCustomNodeB n2 = true := List.of_mem_filter hn2
  rcases isCustomNodeB_spec hb2 with ⟨props2, hp2, pid2, hc2, _, _, hpid2⟩
  have hpid2eq : pid2 = pid := by
    rw [← hpid2, hproj2, hckey]
  have hcnr2 : n2.properties.bind (fun p => p.cnr_id) = some pid := by
    rw [hp2]
    simpa [hpid2eq] using congrArg some (hpid2eq ▸ hc2)
  have hv2 := hver n2 (List.mem_of_mem_filter hn2) hcnr2
  have hlat : (projectCustomNode n2).version = "latest" :=
    projectCustomNode_version_latest hv2
  have hceq : (((ns.filter isCustomNodeB).map projectCustomNode).filter
      (fun c => c.node == pid)).getLast hfne = CustomNode.mk pid "latest" := by
    rw [← hproj2] at hckey ⊢
    cases hpr : projectCustomNode n2 with
    | mk a b =>
      rw [hpr] at hckey hlat
      simp only at hckey hlat
      rw [hckey, hlat]
  have hfinal : CustomNode.mk pid "latest" ∈
      (mapFromList ((ns.filter isCustomNodeB).map projectCustomNode)).filter
        (fun c => c.node == pid) := by
    rw [hfl, hceq]
    exact List.mem_singleton_self _
  exact List.mem_of_mem_filter hfinal

/-- C10 (witness): a node declaring `cnr_id = "my-pack"` with `ver = ""`
(present but empty) is recorded as `{node: "my-pack", version: "latest"}`. -/
theorem C10_witness :
    ∃ cs, extractCustomNodes wfEmptyVer = Except.ok cs ∧
      CustomNode.mk "my-pack" "latest" ∈ cs :=
  C10_falsy_ver_latest wfEmptyVer nsEmptyVer (packNode "my-pack" (some ""))
    "my-pack" rfl (List.mem_singleton_self _) rfl (by decide) (by decide)
    (by decide)
